import Mathlib

set_option linter.unusedVariables false

/-!
Shallow embedding of the browser-stream core (ref registry, resolver,
snapshot builder, differ, mutation tracker, action engine) and proofs of
the specification claims about it.  CDP round-trips are modelled as
oracle fields of explicit environment structures; a call that can throw
is modelled with `Option` (`none` = the call threw).
-/

namespace BrowserStream

/-- Error taxonomy (src/types.ts, D7). -/
inductive ErrorCode where
  | REF_STALE
  | NO_SUCH_REF
  | NOT_INTERACTABLE
  | STABILITY_TIMEOUT
  | CDP_DISCONNECTED
  | PAGE_CRASHED
  | ACTION_FAILED
  | SCRIPT_ERROR
  | FILL_FAILED
  | WAIT_TIMEOUT
deriving DecidableEq

/-- Node identity stored in the ref registry (src/types.ts, D2). -/
structure NodeIdentity where
  axNodeId : String
  backendNodeId : Nat
  domPath : String
  stale : Bool
deriving DecidableEq

/-- Association-list lookup, modelling `Map.get` / JS object indexing
(keys are unique by construction of `amSet`). -/
def amGet {κ α : Type} [DecidableEq κ] : List (κ × α) → κ → Option α
  | [], _ => none
  | (k, v) :: rest, key => if k = key then some v else amGet rest key

/-- Association-list insertion, modelling `Map.set` / JS object
assignment: replaces in place when the key exists, appends otherwise
(preserving JS insertion-order iteration). -/
def amSet {κ α : Type} [DecidableEq κ] : List (κ × α) → κ → α → List (κ × α)
  | [], key, v => [(key, v)]
  | (k, w) :: rest, key, v =>
    if k = key then (k, v) :: rest else (k, w) :: amSet rest key v

/-- Association-list removal, modelling `Map.delete`. -/
def amDelete {κ α : Type} [DecidableEq κ] : List (κ × α) → κ → List (κ × α)
  | [], _ => []
  | (k, w) :: rest, key => if k = key then rest else (k, w) :: amDelete rest key

/-- First-occurrence de-duplication over a seen accumulator, modelling
iteration over a JS `Set` built from a list. -/
def setDedupAux {α : Type} [DecidableEq α] : List α → List α → List α
  | _, [] => []
  | seen, a :: rest =>
    if a ∈ seen then setDedupAux seen rest else a :: setDedupAux (seen ++ [a]) rest

/-- Iteration order of `new Set([...])`: elements in first-occurrence order. -/
def setDedup {α : Type} [DecidableEq α] (l : List α) : List α := setDedupAux [] l

/-- The registry's mutable module state: the process-wide counter and the
`refs` map (src/state/ref-map.ts). -/
structure RegState where
  counter : Nat
  refs : List (String × NodeIdentity)
deriving DecidableEq

/-- The state at session start: counter 0, empty map. -/
def initialRegState : RegState := { counter := 0, refs := [] }

/-- The ref string `@e<n>` built by `assignRef`. -/
def mkRef (n : Nat) : String := "@e" ++ Nat.repr n

/-- assignRef (src/state/ref-map.ts): increment the counter, insert the
identity with `stale := false`, return the new ref. -/
def assignRef (st : RegState) (axNodeId : String) (backendNodeId : Nat)
    (domPath : String) : String × RegState :=
  let counter := st.counter + 1
  let ref := mkRef counter
  (ref,
   { counter,
     refs := amSet st.refs ref
       { axNodeId, backendNodeId, domPath, stale := false } })

/-- getIdentity (src/state/ref-map.ts). -/
def getIdentity (st : RegState) (ref : String) : Option NodeIdentity :=
  amGet st.refs ref

/-- markAllStale (src/state/ref-map.ts). -/
def markAllStale (st : RegState) : RegState :=
  { st with refs := st.refs.map (fun p => (p.1, { p.2 with stale := true })) }

/-- clearAll (src/state/ref-map.ts): wipes the map, the counter is
intentionally not reset. -/
def clearAll (st : RegState) : RegState := { st with refs := [] }

/-- freeRef (src/state/ref-map.ts). -/
def freeRef (st : RegState) (ref : String) : RegState :=
  { st with refs := amDelete st.refs ref }

/-- resetCounter (src/state/ref-map.ts, test only). -/
def resetCounter (st : RegState) : RegState := { counter := 0, refs := [] }

/-- A registry operation from the set the uniqueness claim quantifies
over: `assign`, `clear`, `free` (no test-only `resetCounter`). -/
inductive RegOp where
  | assign (axNodeId : String) (backendNodeId : Nat) (domPath : String)
  | clear
  | free (ref : String)

/-- Run a sequence of registry operations, collecting the ref returned by
each `assign` call in order. -/
def runRegOps : RegState → List RegOp → RegState × List String
  | st, [] => (st, [])
  | st, .assign ax b path :: rest =>
    let (ref, st') := assignRef st ax b path
    let (stEnd, out) := runRegOps st' rest
    (stEnd, ref :: out)
  | st, .clear :: rest => runRegOps (clearAll st) rest
  | st, .free r :: rest => runRegOps (freeRef st r) rest

/-- Decimal value of an ASCII digit character (left inverse of
`Nat.digitChar` on digits). -/
def digitVal (c : Char) : Nat := c.toNat - 48

/-- Value of a decimal digit string read most-significant-first. -/
def digitsVal (l : List Char) : Nat := l.foldl (fun a c => a * 10 + digitVal c) 0

/-- Which tier of the resolver ladder produced the backend node id. -/
inductive ResolvedBy where
  | backendNodeId
  | domPath
deriving DecidableEq

/-- Result of `resolveRef`: either a resolved backend node id with its
tier, or an error code. -/
inductive ResolveOutcome where
  | resolved (backendNodeId : Nat) (resolvedBy : ResolvedBy)
  | error (code : ErrorCode)
deriving DecidableEq

/-- Oracle for the CDP calls `resolveRef` makes.  `none` models a call
that threw; `querySelector` returning `some 0` models the protocol's
"no match" result (`nodeId` falsy in the source). -/
structure ResolveEnv where
  resolveNodeOk : Nat → Bool
  getDocument : Option Nat
  querySelector : Nat → String → Option Nat
  describeNode : Nat → Option Nat
  axPartialTree : Nat → Option String

/-- resolveRef (src/state/ref-map.ts): the three-tier D2 resolution
ladder.  Returns the (possibly updated) registry state together with the
outcome; on the domPath tier the stored identity's `backendNodeId` is
rewritten, `axNodeId` is refreshed best-effort and `stale` is cleared. -/
def resolveRef (env : ResolveEnv) (st : RegState) (ref : String) :
    RegState × ResolveOutcome :=
  match amGet st.refs ref with
  | none => (st, .error .NO_SUCH_REF)
  | some identity =>
    if env.resolveNodeOk identity.backendNodeId then
      (st, .resolved identity.backendNodeId .backendNodeId)
    else
      match env.getDocument with
      | none => (st, .error .REF_STALE)
      | some rootNodeId =>
        match env.querySelector rootNodeId identity.domPath with
        | none => (st, .error .REF_STALE)
        | some nodeId =>
          if nodeId = 0 then (st, .error .REF_STALE)
          else
            match env.describeNode nodeId with
            | none => (st, .error .REF_STALE)
            | some newBackendNodeId =>
              let identity' :=
                { identity with
                  backendNodeId := newBackendNodeId,
                  axNodeId :=
                    (env.axPartialTree newBackendNodeId).getD identity.axNodeId,
                  stale := false }
              ({ st with refs := amSet st.refs ref identity' },
               .resolved newBackendNodeId .domPath)

/-- Viewport dimensions (src/types.ts). -/
structure Viewport where
  width : Nat
  height : Nat
deriving DecidableEq

/-- PageInfo (src/types.ts). -/
structure PageInfo where
  url : String
  title : String
  viewport : Viewport
deriving DecidableEq

/-- The zero page used by every error envelope. -/
def zeroPageInfo : PageInfo :=
  { url := "", title := "", viewport := { width := 0, height := 0 } }

/-- ErrorDetail (src/types.ts). -/
structure ErrorDetail where
  code : ErrorCode
  message : String
deriving DecidableEq

/-- Consequence type tag (src/types.ts). -/
inductive ConsequenceType where
  | appeared
  | disappeared
  | changed
  | network
  | domChurn
  | layoutShift
deriving DecidableEq

/-- Consequence (src/types.ts).  `cls` is a float in the source; it is
carried here as an opaque payload only (never computed with). -/
structure Consequence where
  type : ConsequenceType
  ref : Option String := none
  desc : String
  churnCount : Option Nat := none
  cls : Option Nat := none
  shiftCount : Option Nat := none
deriving DecidableEq

/-- ActionResult (src/types.ts): `resolvedBy` is optional, absence is
`none`. -/
structure ActionResult where
  version : Nat := 1
  action : String
  ok : Bool
  page : PageInfo
  consequences : List Consequence
  newInteractiveElements : List String
  errors : List ErrorDetail
  warnings : List String
  resolvedBy : Option ResolvedBy := none
  timingMs : Nat
deriving DecidableEq

/-- errorAction (src/actions/engine.ts): the error envelope every
`ok:false` action result is built from. -/
def errorAction (action : String) (errors : List ErrorDetail) (timingMs : Nat) :
    ActionResult :=
  { action, ok := false,
    page := zeroPageInfo,
    consequences := [], newInteractiveElements := [],
    errors, warnings := [], timingMs }

/-- SnapshotResult (src/types.ts). -/
structure SnapshotResult where
  version : Nat := 1
  ok : Bool
  page : PageInfo
  elements : List String
  errors : List ErrorDetail
  timingMs : Nat
deriving DecidableEq

/-- The interactive-role set (src/state/snapshot.ts). -/
def INTERACTIVE_ROLES : List String :=
  ["button", "link", "textbox", "combobox", "checkbox", "radio",
   "menuitem", "tab", "switch", "slider", "spinbutton", "searchbox"]

/-- The fixed CSS selector union of the DOM fallback
(src/state/snapshot.ts). -/
def DOM_FALLBACK_SELECTOR : String :=
  String.intercalate ", "
    ["a[href]", "button", "input", "select", "textarea",
     "[role=\"button\"]", "[role=\"link\"]", "[role=\"textbox\"]",
     "[role=\"checkbox\"]", "[role=\"radio\"]", "[role=\"combobox\"]",
     "[role=\"menuitem\"]", "[role=\"tab\"]", "[role=\"switch\"]",
     "[tabindex]:not([tabindex=\"-1\"])"]

/-- SnapshotElement (src/types.ts): `properties` is the string-to-string
map, kept as an insertion-ordered association list. -/
structure SnapshotElement where
  ref : String
  axNodeId : String
  domPath : String
  role : String
  name : String
  compactLine : String
  properties : List (String × String)
deriving DecidableEq

/-- SnapshotData (src/types.ts). -/
structure SnapshotData where
  elements : List SnapshotElement
  page : PageInfo
deriving DecidableEq

/-- Double-quote a string the way the source's template literals do. -/
def quoted (s : String) : String := "\"" ++ s ++ "\""

/-- formatCompactLine (src/state/snapshot.ts): the single-line rendering
`@eN role "name" [states] value:"…"`. -/
def formatCompactLine (ref role name : String)
    (properties : List (String × String)) : String :=
  let line := ref ++ " " ++ role
  let line := if name ≠ "" then line ++ " " ++ quoted name else line
  let states : List String :=
    (if amGet properties "focused" = some "true" then ["focused"] else []) ++
    (if amGet properties "checked" = some "true" then ["checked"] else []) ++
    (if amGet properties "selected" = some "true" then ["selected"] else []) ++
    (if amGet properties "expanded" = some "true" then ["expanded"] else []) ++
    (if amGet properties "disabled" = some "true" then ["disabled"] else []) ++
    (if amGet properties "required" = some "true" then ["required"] else [])
  let line :=
    if states ≠ [] then line ++ " [" ++ String.intercalate ", " states ++ "]"
    else line
  match amGet properties "value" with
  | some v => if v ≠ "" ∧ v ≠ name then line ++ " value:" ++ quoted v else line
  | none => line

/-- One AX property as consumed by `extractAxProperties`: the source
keeps `p.name` and `String(p.value.value)` when `p.value` is present and
`p.value.value` is not `undefined`; both truthiness checks collapse into
the `Option`. -/
structure AxProperty where
  name : String
  value : Option String

/-- extractAxProperties (src/state/snapshot.ts). -/
def extractAxProperties (props : List AxProperty) : List (String × String) :=
  props.foldl
    (fun acc p =>
      match p.value with
      | some v => amSet acc p.name v
      | none => acc) []

/-- One node of `Accessibility.getFullAXTree` as consumed by the
snapshot builder: `role` is `node.role?.value || ""`, `name` is
`node.name?.value || ""`, `backendDOMNodeId` is optional. -/
structure AxNode where
  nodeId : String
  role : String
  ignored : Bool
  name : String
  backendDOMNodeId : Option Nat
  properties : List AxProperty

/-- Per-node data of the DOM fallback loop, collapsing the
`describeNode` / `resolveNode` / name-script / domPath / AX round-trips:
`objectInfo` is `some (name, domPath)` when an `objectId` was obtained,
`axNodeId` is the best-effort partial-AX-tree id. -/
structure FallbackNodeInfo where
  backendNodeId : Nat
  nodeName : String
  attributes : List String
  objectInfo : Option (String × String)
  axNodeId : Option String

/-- Oracle for the CDP traffic of one snapshot build.  `domPathOf b` is
the computed dom path for a backend node (`none` = the resolve threw,
the default `"body"` is kept); `fallbackInfo` is `none` when a call of
the fallback loop threw (the element is skipped). -/
structure SnapEnv where
  axNodes : List AxNode
  domPathOf : Nat → Option String
  bodyChildElementCount : Nat
  fallbackNodeIds : List Nat
  fallbackInfo : Nat → Option FallbackNodeInfo
  pageInfo : PageInfo

/-- snapshotFromAxTree (src/state/snapshot.ts): walk the full AX tree,
keeping interactive non-ignored nodes; count them, skip those without a
`backendDOMNodeId` (falsy check, so id 0 is also skipped), assign refs.
Returns (elements, interactiveCount) and the registry state. -/
def snapshotFromAxTree (env : SnapEnv) (st : RegState) :
    List SnapshotElement × Nat × RegState :=
  env.axNodes.foldl
    (fun acc node =>
      let (elements, interactiveCount, st) := acc
      if ¬ INTERACTIVE_ROLES.contains node.role then acc
      else if node.ignored then acc
      else
        let interactiveCount := interactiveCount + 1
        match node.backendDOMNodeId with
        | none => (elements, interactiveCount, st)
        | some backendNodeId =>
          if backendNodeId = 0 then (elements, interactiveCount, st)
          else
            let properties := extractAxProperties node.properties
            let domPath := (env.domPathOf backendNodeId).getD "body"
            let (ref, st') := assignRef st node.nodeId backendNodeId domPath
            (elements ++
              [{ ref, axNodeId := node.nodeId, domPath, role := node.role,
                 name := node.name,
                 compactLine := formatCompactLine ref node.role node.name properties,
                 properties }],
             interactiveCount, st'))
    ([], 0, st)

/-- inferRole: the tag-based role inference of the DOM fallback
(src/state/snapshot.ts).  `input`'s type attribute is read as
`attributes[indexOf("type") + 1]`; a missing attribute array entry
(JS `undefined`) is `none`. -/
def inferRole (tagName : String) (attributes : List String) : String :=
  if tagName = "a" then "link"
  else if tagName = "input" then
    let inputType : Option String :=
      match attributes.indexOf? "type" with
      | some i => attributes.get? (i + 1)
      | none => some "text"
    if inputType = some "checkbox" then "checkbox"
    else if inputType = some "radio" then "radio"
    else "textbox"
  else if tagName = "textarea" then "textbox"
  else if tagName = "select" then "combobox"
  else "button"

/-- snapshotFromDomFallback (src/state/snapshot.ts): synthesize elements
from the fixed selector union's query results. -/
def snapshotFromDomFallback (env : SnapEnv) (st : RegState) :
    List SnapshotElement × RegState :=
  env.fallbackNodeIds.foldl
    (fun acc nodeId =>
      let (elements, st) := acc
      match env.fallbackInfo nodeId with
      | none => acc
      | some info =>
        let lowered := info.nodeName.toLower
        let tagName := if lowered = "" then "unknown" else lowered
        let role := inferRole tagName info.attributes
        let (name, domPath) := info.objectInfo.getD ("", "body")
        let axNodeId := info.axNodeId.getD ""
        let (ref, st') := assignRef st axNodeId info.backendNodeId domPath
        let properties : List (String × String) := []
        (elements ++
          [{ ref, axNodeId, domPath, role, name,
             compactLine := formatCompactLine ref role name properties,
             properties }],
         st'))
    ([], st)

/-- takeSnapshot (src/state/snapshot.ts): clear the registry unless
`keepExistingRefs`, extract from the AX tree, and use the DOM fallback
when no interactive AX node was found but `document.body` has child
elements. -/
def takeSnapshot (env : SnapEnv) (keepExistingRefs : Bool) (st : RegState) :
    SnapshotData × RegState :=
  let st := if keepExistingRefs then st else clearAll st
  let (elements, interactiveCount, st) := snapshotFromAxTree env st
  if interactiveCount = 0 then
    if env.bodyChildElementCount > 0 then
      let (elements, st) := snapshotFromDomFallback env st
      ({ elements, page := env.pageInfo }, st)
    else ({ elements, page := env.pageInfo }, st)
  else ({ elements, page := env.pageInfo }, st)

/-- snapshotDataToResult (src/state/snapshot.ts). -/
def snapshotDataToResult (data : SnapshotData) (timingMs : Nat) : SnapshotResult :=
  { ok := true, page := data.page,
    elements := data.elements.map (·.compactLine), errors := [], timingMs }

/-- errorSnapshotResult (src/state/snapshot.ts). -/
def errorSnapshotResult (errors : List ErrorDetail) (timingMs : Nat) :
    SnapshotResult :=
  { ok := false, page := zeroPageInfo, elements := [], errors, timingMs }

/-- NetworkEvent (src/types.ts): `status` and `durationMs` are optional. -/
structure NetworkEvent where
  requestId : String
  method : String
  url : String
  timestamp : Nat
  status : Option Nat := none
  durationMs : Option Nat := none
deriving DecidableEq

/-- Add to a JS `Set` of strings: append if absent. -/
def setAdd (s : List String) (x : String) : List String :=
  if x ∈ s then s else s ++ [x]

/-- Result of `matchElements` (src/state/differ.ts): the matched map is
keyed by the post element's ref. -/
structure MatchResult where
  matched : List (String × (SnapshotElement × SnapshotElement))
  appeared : List SnapshotElement
  disappeared : List SnapshotElement
  domPathFallbacks : Nat
deriving DecidableEq

/-- The `preByAxId`/`postByAxId` maps: only elements with a truthy
(non-empty) `axNodeId` are inserted. -/
def buildByAxId (elements : List SnapshotElement) :
    List (String × SnapshotElement) :=
  elements.foldl
    (fun m el => if el.axNodeId ≠ "" then amSet m el.axNodeId el else m) []

/-- The `preByPath`/`postByPath` maps. -/
def buildByPath (elements : List SnapshotElement) :
    List (String × SnapshotElement) :=
  elements.foldl (fun m el => amSet m el.domPath el) []

/-- Phase 1 of `matchElements` (src/state/differ.ts): pair post and pre
elements sharing an `axNodeId`, accumulating the matched map and the
matched pre/post ref sets. -/
def matchPhase1 (preByAxId postByAxId : List (String × SnapshotElement)) :
    List (String × (SnapshotElement × SnapshotElement)) ×
      List String × List String :=
  postByAxId.foldl
    (fun acc entry =>
      let (matched, matchedPreRefs, matchedPostRefs) := acc
      let (axId, postEl) := entry
      match amGet preByAxId axId with
      | some preEl =>
        (amSet matched postEl.ref (preEl, postEl),
         setAdd matchedPreRefs preEl.ref, setAdd matchedPostRefs postEl.ref)
      | none => acc)
    ([], [], [])

/-- Phase 2 of `matchElements` (src/state/differ.ts): pair still
unmatched post elements with still unmatched pre elements sharing a
`domPath`, counting the fallback pairs. -/
def matchPhase2 (preByPath : List (String × SnapshotElement))
    (postElements : List SnapshotElement)
    (init : List (String × (SnapshotElement × SnapshotElement)) ×
      List String × List String) :
    List (String × (SnapshotElement × SnapshotElement)) ×
      List String × List String × Nat :=
  postElements.foldl
    (fun acc postEl =>
      let (matched, matchedPreRefs, matchedPostRefs, domPathFallbacks) := acc
      if postEl.ref ∈ matchedPostRefs then acc
      else
        match amGet preByPath postEl.domPath with
        | some preEl =>
          if preEl.ref ∈ matchedPreRefs then acc
          else
            (amSet matched postEl.ref (preEl, postEl),
             setAdd matchedPreRefs preEl.ref, setAdd matchedPostRefs postEl.ref,
             domPathFallbacks + 1)
        | none => acc)
    (init.1, init.2.1, init.2.2, 0)

/-- matchElements (src/state/differ.ts): phase 1 pairs post and pre
elements sharing an `axNodeId`; phase 2 pairs still-unmatched post
elements with still-unmatched pre elements sharing a `domPath`. -/
def matchElements (pre post : SnapshotData) : MatchResult :=
  let preByAxId := buildByAxId pre.elements
  let preByPath := buildByPath pre.elements
  let postByAxId := buildByAxId post.elements
  let (matched, matchedPreRefs, matchedPostRefs, domPathFallbacks) :=
    matchPhase2 preByPath post.elements (matchPhase1 preByAxId postByAxId)
  { matched,
    appeared := post.elements.filter (fun el => el.ref ∉ matchedPostRefs),
    disappeared := pre.elements.filter (fun el => el.ref ∉ matchedPreRefs),
    domPathFallbacks }

/-- The segments a property-difference loop iteration produces:
`new Set([...keys(pre), ...keys(post)])` in first-occurrence order,
with `x || ""` rendering of absent values. -/
def propertyChangeSegments (pre post : List (String × String)) : List String :=
  (setDedup (pre.map Prod.fst ++ post.map Prod.fst)).filterMap
    (fun key =>
      if amGet pre key ≠ amGet post key then
        some (key ++ ": " ++ quoted ((amGet pre key).getD "") ++ " -> " ++
          quoted ((amGet post key).getD ""))
      else none)

/-- describeChange (src/state/differ.ts): `some` of the comma-joined
change segments, or `none` when nothing differs.  Note the name and
property segments quote old/new but the role segment does not. -/
def describeChange (pre post : SnapshotElement) : Option String :=
  let changes : List String :=
    (if pre.name ≠ post.name then
      ["name: " ++ quoted pre.name ++ " -> " ++ quoted post.name] else []) ++
    (if pre.role ≠ post.role then
      ["role: " ++ pre.role ++ " -> " ++ post.role] else []) ++
    propertyChangeSegments pre.properties post.properties
  if changes ≠ [] then some (String.intercalate ", " changes) else none

/-- The `new URL(url).pathname` extraction with fallback to the raw url;
WHATWG URL parsing is an oracle (`none` = the constructor threw). -/
def urlPathOf (pathnameOf : String → Option String) (url : String) : String :=
  (pathnameOf url).getD url

/-- Rendering of `evt.status || "pending"` (0 is falsy). -/
def statusText : Option Nat → String
  | some s => if s = 0 then "pending" else Nat.repr s
  | none => "pending"

/-- diffSnapshots (src/state/differ.ts): appeared, then disappeared,
then changed, then network consequences. -/
def diffSnapshots (pathnameOf : String → Option String)
    (pre post : SnapshotData) (networkEvents : List NetworkEvent) :
    List Consequence :=
  let m := matchElements pre post
  (m.appeared.map (fun el =>
    { type := .appeared, ref := some el.ref,
      desc := el.role ++ " " ++ quoted el.name ++ " appeared" })) ++
  (m.disappeared.map (fun el =>
    { type := .disappeared, ref := some el.ref,
      desc := el.role ++ " " ++ quoted el.name ++ " disappeared" })) ++
  (m.matched.filterMap (fun entry =>
    (describeChange entry.2.1 entry.2.2).map (fun change =>
      { type := .changed, ref := some entry.1, desc := change }))) ++
  (networkEvents.map (fun evt =>
    { type := .network,
      desc := evt.method ++ " " ++ urlPathOf pathnameOf evt.url ++ " -> " ++
        statusText evt.status ++ " (" ++ Nat.repr (evt.durationMs.getD 0) ++ "ms)" }))

/-- One DOM mutation event seen by the standalone tracker
(src/actions/stability.ts). -/
inductive MutEvent where
  | inserted (parentNodeId : Nat)
  | removed (parentNodeId : Nat)
deriving DecidableEq

/-- MutationRecord (src/types.ts). -/
structure MutationRecord where
  insertions : Nat
  removals : Nat
  churnCount : Nat
deriving DecidableEq

/-- One handler step: `map.set(p, (map.get(p) || 0) + 1)`. -/
def bumpCount (m : List (Nat × Nat)) (p : Nat) : List (Nat × Nat) :=
  amSet m p ((amGet m p).getD 0 + 1)

/-- One event dispatch of the tracker: `onInserted` bumps the
per-parent insertion map, `onRemoved` the removal map. -/
def trackerStep (acc : List (Nat × Nat) × List (Nat × Nat)) (e : MutEvent) :
    List (Nat × Nat) × List (Nat × Nat) :=
  match e with
  | .inserted p => (bumpCount acc.1 p, acc.2)
  | .removed p => (acc.1, bumpCount acc.2 p)

/-- The tracker's per-parent insertion/removal maps after a sequence of
events (createMutationTracker's handlers, src/actions/stability.ts). -/
def trackerState (events : List MutEvent) :
    List (Nat × Nat) × List (Nat × Nat) :=
  events.foldl trackerStep ([], [])

/-- The `stop()` aggregation of createMutationTracker
(src/actions/stability.ts): total insertions, total removals, and
`churnCount = Σ over parents of min(ins[p], rem[p])`. -/
def trackerStop (events : List MutEvent) : MutationRecord :=
  let (parentInsertions, parentRemovals) := trackerState events
  let insertions := (parentInsertions.map Prod.snd).sum
  let removals := (parentRemovals.map Prod.snd).sum
  let parents :=
    setDedup (parentInsertions.map Prod.fst ++ parentRemovals.map Prod.fst)
  let churnCount :=
    (parents.map (fun p =>
      min ((amGet parentInsertions p).getD 0)
          ((amGet parentRemovals p).getD 0))).sum
  { insertions, removals, churnCount }

/-- The parent node id an event is keyed by. -/
def MutEvent.parent : MutEvent → Nat
  | .inserted p => p
  | .removed p => p

/-- Number of insertion events at parent `p` in a sequence. -/
def insCountAt (events : List MutEvent) (p : Nat) : Nat :=
  events.count (.inserted p)

/-- Number of removal events at parent `p` in a sequence. -/
def remCountAt (events : List MutEvent) (p : Nat) : Nat :=
  events.count (.removed p)

/-- Concrete fixture for the differ theorems: a checkbox element before
an action, `checked` still "false". -/
def checkboxPreEl : SnapshotElement :=
  { ref := "@e1", axNodeId := "ax1",
    domPath := "body > input:nth-of-type(1)", role := "checkbox",
    name := "Accept", compactLine := "@e1 checkbox \"Accept\"",
    properties := [("checked", "false")] }

/-- Concrete fixture for the differ theorems: the same checkbox after an
action, `checked` now "true"; same name, role and property key set. -/
def checkboxPostEl : SnapshotElement :=
  { ref := "@e2", axNodeId := "ax1",
    domPath := "body > input:nth-of-type(1)", role := "checkbox",
    name := "Accept", compactLine := "@e2 checkbox \"Accept\" [checked]",
    properties := [("checked", "true")] }

/-- Pre-action snapshot fixture. -/
def checkboxPreSnap : SnapshotData :=
  { elements := [checkboxPreEl], page := zeroPageInfo }

/-- Post-action snapshot fixture. -/
def checkboxPostSnap : SnapshotData :=
  { elements := [checkboxPostEl], page := zeroPageInfo }

/-- A thrown JS error as the engine's catch blocks see it: a message,
plus the optional `code` property some throw sites attach (the catch in
`executeWithConsequences` reads only `e.message`). -/
structure ThrownError where
  message : String
  code : Option ErrorCode := none
deriving DecidableEq

/-- Outcome of `ensureInteractable` (src/actions/interactable.ts),
collapsed to its interface: either an error detail or the object handle
with centroid coordinates and the resolver tier. -/
inductive InteractableOutcome where
  | failure (err : ErrorDetail)
  | success (objectId : String) (x : Int) (y : Int) (resolvedBy : ResolvedBy)

/-- Oracle for one run of the ref-action pipeline
(`executeWithConsequences`, src/actions/engine.ts).  `none` snapshot
fields model a `takeSnapshot` that threw; `timing` stands for the
wall-clock `Date.now() - start` deltas, which are not modelled
individually. -/
structure EngineEnv where
  clientOk : Bool
  crashed : Bool
  interactable : InteractableOutcome
  preSnapshot : Option SnapshotData
  preSnapshotErrMsg : String := ""
  actionThrow : Option ThrownError
  stabilityTimedOut : Bool
  networkEvents : List NetworkEvent
  postSnapshot : Option SnapshotData
  postSnapshotErrMsg : String := ""
  pathnameOf : String → Option String
  timing : Nat

/-- cdpError (src/actions/engine.ts). -/
def cdpError (crashed : Bool) : List ErrorDetail :=
  if crashed then [{ code := .PAGE_CRASHED, message := "Chrome tab crashed" }]
  else [{ code := .CDP_DISCONNECTED, message := "CDP connection lost" }]

/-- executeWithConsequences (src/actions/engine.ts): the D10 pipeline of
ref-based actions (click, fill).  Every thrown action error is rebuilt
as `ACTION_FAILED` from its message alone. -/
def executeWithConsequences (env : EngineEnv) (actionDesc : String) :
    ActionResult :=
  if ¬ env.clientOk then errorAction actionDesc (cdpError env.crashed) env.timing
  else
    match env.interactable with
    | .failure err => errorAction actionDesc [err] env.timing
    | .success objectId x y resolvedBy =>
      match env.preSnapshot with
      | none =>
        errorAction actionDesc
          [{ code := .ACTION_FAILED,
             message := "Pre-snapshot failed: " ++ env.preSnapshotErrMsg }]
          env.timing
      | some preSnapshot =>
        match env.actionThrow with
        | some e =>
          errorAction actionDesc
            [{ code := .ACTION_FAILED, message := e.message }] env.timing
        | none =>
          match env.postSnapshot with
          | none =>
            errorAction actionDesc
              [{ code := .ACTION_FAILED,
                 message := "Post-snapshot failed: " ++ env.postSnapshotErrMsg }]
              env.timing
          | some postSnapshot =>
            let consequences :=
              diffSnapshots env.pathnameOf preSnapshot postSnapshot
                env.networkEvents
            let warnings :=
              if env.stabilityTimedOut then
                ["STABILITY_TIMEOUT: DOM did not settle within 3000ms"]
              else []
            { action := actionDesc, ok := true, page := postSnapshot.page,
              consequences,
              newInteractiveElements :=
                (postSnapshot.elements.filter (fun el =>
                  consequences.any (fun c =>
                    c.type == ConsequenceType.appeared &&
                    c.ref == some el.ref))).map (·.compactLine),
              errors := [], warnings, resolvedBy := some resolvedBy,
              timingMs := env.timing }

/-- Outcome of one in-page CDP call of the fill script:
either a thrown protocol error or the returned value. -/
inductive CdpCall (α : Type) where
  | thrown (message : String)
  | value (a : α)

/-- Oracle for the three in-page calls of `fill`'s action function:
the `isContentEditable` probe, the contentEditable setter, and the
native-setter script whose returned value is the persistence check. -/
structure FillPageEnv where
  editableCheck : CdpCall Bool
  editableSet : CdpCall Unit
  setValueCall : CdpCall Bool

/-- The action function of `fill` (src/actions/engine.ts): `none` if it
returned normally, `some e` if it threw `e`.  When the native-setter
script reports a falsy value it throws an error carrying
`code: "FILL_FAILED"` and message "Fill failed: could not set value". -/
def fillActionOutcome (fp : FillPageEnv) : Option ThrownError :=
  match fp.editableCheck with
  | .thrown m => some { message := m }
  | .value true =>
    match fp.editableSet with
    | .thrown m => some { message := m }
    | .value _ => none
  | .value false =>
    match fp.setValueCall with
    | .thrown m => some { message := m }
    | .value v =>
      if v then none
      else some { message := "Fill failed: could not set value",
                  code := some .FILL_FAILED }

/-- fill (src/actions/engine.ts): the D10 pipeline run with fill's
action function. -/
def fill (env : EngineEnv) (fp : FillPageEnv) (ref value : String) :
    ActionResult :=
  executeWithConsequences { env with actionThrow := fillActionOutcome fp }
    ("fill " ++ ref ++ " '" ++ value ++ "'")

/-- Engine-environment fixture in which every pipeline step up to the
action succeeds. -/
def engineOkEnv : EngineEnv :=
  { clientOk := true, crashed := false,
    interactable := .success "obj1" 10 20 .backendNodeId,
    preSnapshot := some { elements := [], page := zeroPageInfo },
    actionThrow := none,
    stabilityTimedOut := false, networkEvents := [],
    postSnapshot := some { elements := [], page := zeroPageInfo },
    pathnameOf := fun _ => none, timing := 0 }

/-- Engine-environment fixture in which `getClient` throws
(disconnected, not crashed). -/
def engineDisconnectedEnv : EngineEnv :=
  { engineOkEnv with clientOk := false }

/-- Fill-page fixture: the element is not contentEditable and the
native-setter script reports a falsy value (value not persisted). -/
def fillNotPersistedPage : FillPageEnv :=
  { editableCheck := .value false, editableSet := .value (),
    setValueCall := .value false }

/-- An entry of the `KEY_MAP` table (src/actions/engine.ts). -/
structure KeyDef where
  key : String
  code : String
  keyCode : Nat
deriving DecidableEq

/-- KEY_MAP (src/actions/engine.ts). -/
def KEY_MAP : List (String × KeyDef) :=
  [("enter", { key := "Enter", code := "Enter", keyCode := 13 }),
   ("escape", { key := "Escape", code := "Escape", keyCode := 27 }),
   ("tab", { key := "Tab", code := "Tab", keyCode := 9 }),
   ("backspace", { key := "Backspace", code := "Backspace", keyCode := 8 }),
   ("arrowup", { key := "ArrowUp", code := "ArrowUp", keyCode := 38 }),
   ("arrowdown", { key := "ArrowDown", code := "ArrowDown", keyCode := 40 }),
   ("arrowleft", { key := "ArrowLeft", code := "ArrowLeft", keyCode := 37 }),
   ("arrowright", { key := "ArrowRight", code := "ArrowRight", keyCode := 39 }),
   (" ", { key := " ", code := "Space", keyCode := 32 }),
   ("space", { key := " ", code := "Space", keyCode := 32 })]

/-- The parsed key combination (src/actions/engine.ts). -/
structure ParsedKey where
  key : String
  code : String
  keyCode : Nat
  modifiers : Nat
  ctrlKey : Bool
  shiftKey : Bool
  altKey : Bool
  metaKey : Bool
deriving DecidableEq

/-- The modifier-flag loop of `parseKeyCombo`: fold the tokens that
precede the primary key through the lowercased switch. -/
def modifierFlags (parts : List String) : Bool × Bool × Bool × Bool :=
  parts.foldl
    (fun acc mod =>
      let (ctrlKey, shiftKey, altKey, metaKey) := acc
      let m := mod.toLower
      if m = "control" ∨ m = "ctrl" then (true, shiftKey, altKey, metaKey)
      else if m = "shift" then (ctrlKey, true, altKey, metaKey)
      else if m = "alt" then (ctrlKey, shiftKey, true, metaKey)
      else if m = "meta" ∨ m = "command" ∨ m = "cmd" then
        (ctrlKey, shiftKey, altKey, true)
      else acc)
    (false, false, false, false)

/-- parseKeyCombo (src/actions/engine.ts).  `split("+")` never yields an
empty array, so `parts.pop()` is the last element; `charCodeAt(0)` of
the empty string (JS `NaN`) is modelled as 0 (it only feeds `key`,
`code`, `keyCode`, not the modifiers). -/
def parseKeyCombo (keyStr : String) : ParsedKey :=
  let parts := keyStr.splitOn "+"
  let mainKey := parts.getLastD ""
  let (ctrlKey, shiftKey, altKey, metaKey) := modifierFlags parts.dropLast
  let modifiers :=
    (if ctrlKey then 2 else 0) ||| (if altKey then 1 else 0) |||
    (if shiftKey then 8 else 0) ||| (if metaKey then 4 else 0)
  match amGet KEY_MAP mainKey.toLower with
  | some mapped =>
    { key := mapped.key, code := mapped.code, keyCode := mapped.keyCode,
      modifiers, ctrlKey, shiftKey, altKey, metaKey }
  | none =>
    let char := mainKey
    let upper := char.toUpper
    let charCode := ((upper.get? 0).map Char.toNat).getD 0
    let code :=
      if 48 ≤ charCode ∧ charCode ≤ 57 then "Digit" ++ char
      else "Key" ++ upper
    { key := char, code, keyCode := charCode,
      modifiers, ctrlKey, shiftKey, altKey, metaKey }

/-- Character-list prefix test (for the substring check below). -/
def charsStartWith : List Char → List Char → Bool
  | _, [] => true
  | [], _ :: _ => false
  | c :: hay, d :: needle => c = d && charsStartWith hay needle

/-- Character-list substring test. -/
def charsContain : List Char → List Char → Bool
  | hay, needle =>
    if charsStartWith hay needle then true
    else
      match hay with
      | [] => false
      | _ :: rest => charsContain rest needle

/-- JS `String.prototype.includes`. -/
def strIncludes (haystack needle : String) : Bool :=
  charsContain haystack.data needle.data

/-- The text condition of `waitFor` (src/actions/engine.ts):
case-insensitive substring match against the page title, element names
and `properties.value`. -/
def waitTextSatisfied (text : String) (data : SnapshotData) : Bool :=
  let needle := text.toLower
  if strIncludes data.page.title.toLower needle then true
  else
    data.elements.any (fun el =>
      strIncludes el.name.toLower needle ||
      (match amGet el.properties "value" with
       | some v => strIncludes v.toLower needle
       | none => false))

/-- Oracle for one polling iteration of `waitFor`: the snapshot attempt
(`none` = it threw) and, when a ref condition is given, whether
`resolveRef` succeeded and whether `DOM.getBoxModel` succeeded. -/
structure WaitIteration where
  snapshot : Option SnapshotData
  refResolves : Bool
  boxModelOk : Bool

/-- Oracle for a `waitFor` run. -/
structure WaitEnv where
  clientOk : Bool
  crashed : Bool
  iterations : Nat → WaitIteration

/-- The polling loop of `waitFor`: each iteration advances the modelled
clock by the 500 ms poll interval. -/
def waitLoop (env : WaitEnv) (text ref : Option String) (timeout : Nat)
    (elapsed k : Nat) : SnapshotResult :=
  if h : elapsed < timeout then
    let iter := env.iterations k
    match iter.snapshot with
    | some data =>
      let textSatisfied :=
        match text with
        | some t => waitTextSatisfied t data
        | none => true
      let refSatisfied :=
        match ref with
        | some _ => iter.refResolves && iter.boxModelOk
        | none => true
      if textSatisfied && refSatisfied then snapshotDataToResult data elapsed
      else waitLoop env text ref timeout (elapsed + 500) (k + 1)
    | none => waitLoop env text ref timeout (elapsed + 500) (k + 1)
  else
    { ok := false, page := zeroPageInfo, elements := [],
      errors := [{ code := .WAIT_TIMEOUT,
                   message := "Condition not met within " ++ Nat.repr timeout ++ "ms" }],
      timingMs := elapsed }
termination_by timeout - elapsed
decreasing_by omega

/-- waitFor (src/actions/engine.ts): `const timeout = opts.timeout || 10000`
(any falsy timeout, in particular 0, becomes the 10000 ms default). -/
def waitFor (env : WaitEnv) (text ref : Option String)
    (timeout : Option Nat) : SnapshotResult :=
  let timeout :=
    match timeout with
    | some t => if t = 0 then 10000 else t
    | none => 10000
  if ¬ env.clientOk then errorSnapshotResult (cdpError env.crashed) 0
  else waitLoop env text ref timeout 0 0

/-! ## Theorems -/

theorem toDigitsCore_eq_append (b : Nat) :
    ∀ (f n : Nat) (l : List Char),
      Nat.toDigitsCore b f n l = Nat.toDigitsCore b f n [] ++ l := by
  intro f
  induction f with
  | zero => intro n l; simp [Nat.toDigitsCore]
  | succ f ih =>
    intro n l
    simp only [Nat.toDigitsCore]
    by_cases h : n / b = 0
    · simp [h]
    · simp only [h, if_false]
      rw [ih (n / b) (Nat.digitChar (n % b) :: l),
        ih (n / b) [Nat.digitChar (n % b)]]
      simp

theorem digitVal_digitChar {n : Nat} (h : n < 10) :
    digitVal (Nat.digitChar n) = n := by
  interval_cases n <;> decide

theorem digitsVal_append_digit (l : List Char) (c : Char) :
    digitsVal (l ++ [c]) = digitsVal l * 10 + digitVal c := by
  simp [digitsVal, List.foldl_append]

theorem digitsVal_toDigitsCore :
    ∀ (f n : Nat), n ≤ f → digitsVal (Nat.toDigitsCore 10 (f + 1) n []) = n := by
  intro f
  induction f with
  | zero =>
    intro n hn
    have h0 : n = 0 := Nat.le_zero.mp hn
    subst h0
    decide
  | succ f ih =>
    intro n hn
    have step : Nat.toDigitsCore 10 (f + 1 + 1) n [] =
        if n / 10 = 0 then [Nat.digitChar (n % 10)]
        else Nat.toDigitsCore 10 (f + 1) (n / 10) [Nat.digitChar (n % 10)] := rfl
    rw [step]
    by_cases h : n / 10 = 0
    · rw [if_pos h]
      have hn10 : n < 10 := by omega
      have hone : digitsVal [Nat.digitChar (n % 10)] = n % 10 := by
        simp [digitsVal, digitVal_digitChar (Nat.mod_lt n (by norm_num))]
      rw [hone, Nat.mod_eq_of_lt hn10]
    · rw [if_neg h]
      rw [toDigitsCore_eq_append 10 (f + 1) (n / 10) [Nat.digitChar (n % 10)],
        digitsVal_append_digit, ih (n / 10) (by omega),
        digitVal_digitChar (Nat.mod_lt n (by norm_num))]
      omega

theorem natRepr_injective : Function.Injective Nat.repr := by
  intro m n h
  have hdata : Nat.toDigits 10 m = Nat.toDigits 10 n := by
    simpa [Nat.repr, List.asString] using congrArg String.data h
  have hm := digitsVal_toDigitsCore m m (Nat.le_refl m)
  have hn := digitsVal_toDigitsCore n n (Nat.le_refl n)
  unfold Nat.toDigits at hdata
  rw [← hm, ← hn, hdata]

theorem mkRef_injective : Function.Injective mkRef := by
  intro m n h
  apply natRepr_injective
  apply String.ext
  have hdata := congrArg String.data h
  simp only [mkRef, String.data_append] at hdata
  exact List.append_cancel_left hdata

theorem runRegOps_assigned (ops : List RegOp) :
    ∀ st : RegState, ∃ ns : List Nat,
      (runRegOps st ops).2 = ns.map mkRef ∧
      ns.Pairwise (· < ·) ∧ ∀ n ∈ ns, st.counter < n := by
  induction ops with
  | nil => intro st; exact ⟨[], rfl, .nil, by simp⟩
  | cons op rest ih =>
    intro st
    cases op with
    | assign ax b path =>
      obtain ⟨ns, hout, hpw, hlb⟩ := ih (assignRef st ax b path).2
      refine ⟨(st.counter + 1) :: ns, ?_, ?_, ?_⟩
      · simp only [runRegOps]
        rw [hout]
        rfl
      · refine List.Pairwise.cons ?_ hpw
        intro n hn
        exact Nat.lt_of_le_of_lt (Nat.le_refl _) (hlb n hn)
      · intro n hn
        rcases List.mem_cons.mp hn with h | h
        · omega
        · have := hlb n h
          simp only [assignRef] at this
          omega
    | clear =>
      obtain ⟨ns, hout, hpw, hlb⟩ := ih (clearAll st)
      exact ⟨ns, hout, hpw, fun n hn => hlb n hn⟩
    | free r =>
      obtain ⟨ns, hout, hpw, hlb⟩ := ih (freeRef st r)
      exact ⟨ns, hout, hpw, fun n hn => hlb n hn⟩

/-- C1: over any sequence of `assign`/`clear`/`free` registry operations
from the session-initial state, the refs returned by the `assign` calls
are `@e<n>` for a strictly increasing sequence of `n`, hence pairwise
distinct, and `clearAll` never changes (in particular never decrements)
the counter. -/
theorem assign_refs_strictly_increasing_and_unique :
    (∀ ops : List RegOp, ∃ ns : List Nat,
        (runRegOps initialRegState ops).2 = ns.map mkRef ∧
        ns.Pairwise (· < ·) ∧
        ((runRegOps initialRegState ops).2).Pairwise (· ≠ ·)) ∧
    ∀ st : RegState, (clearAll st).counter = st.counter := by
  constructor
  · intro ops
    obtain ⟨ns, hout, hpw, _⟩ := runRegOps_assigned ops initialRegState
    refine ⟨ns, hout, hpw, ?_⟩
    rw [hout, List.pairwise_map]
    exact hpw.imp (fun hlt heq => Nat.ne_of_lt hlt (mkRef_injective heq))
  · intro st; rfl

/-- C2: `resolveRef` is the three-tier ladder: unknown ref gives
`NO_SUCH_REF`; a successful `DOM.resolveNode` on the stored backend node
id returns it with `resolvedBy = backendNodeId` and an unchanged
registry; otherwise a successful `domPath` query returns the node's new
backend id with `resolvedBy = domPath`, writing it back into the stored
identity, refreshing `axNodeId` best-effort and clearing `stale`; any
other failure gives `REF_STALE`, and an action failing this way carries
`consequences = []` (via `errorAction`). -/
theorem resolveRef_three_tier_ladder :
    ∀ (env : ResolveEnv) (st : RegState) (ref : String),
      (amGet st.refs ref = none →
        resolveRef env st ref = (st, .error .NO_SUCH_REF)) ∧
      (∀ identity, amGet st.refs ref = some identity →
        (env.resolveNodeOk identity.backendNodeId = true →
          resolveRef env st ref =
            (st, .resolved identity.backendNodeId .backendNodeId)) ∧
        (env.resolveNodeOk identity.backendNodeId = false →
          (∀ root nodeId newId,
            env.getDocument = some root →
            env.querySelector root identity.domPath = some nodeId →
            nodeId ≠ 0 →
            env.describeNode nodeId = some newId →
            resolveRef env st ref =
              ({ st with refs := amSet st.refs ref { identity with backendNodeId := newId, axNodeId := (env.axPartialTree newId).getD identity.axNodeId, stale := false } },
               .resolved newId .domPath)) ∧
          ((env.getDocument = none ∨
            ∃ root, env.getDocument = some root ∧
              (env.querySelector root identity.domPath = none ∨
               env.querySelector root identity.domPath = some 0 ∨
               ∃ nodeId, env.querySelector root identity.domPath = some nodeId ∧
                 env.describeNode nodeId = none)) →
            resolveRef env st ref = (st, .error .REF_STALE)))) ∧
      ∀ (a : String) (errs : List ErrorDetail) (t : Nat),
        (errorAction a errs t).consequences = [] := by
  intro env st ref
  refine ⟨?_, ?_, fun a errs t => rfl⟩
  · intro h
    simp [resolveRef, h]
  · intro identity hid
    constructor
    · intro hok
      simp [resolveRef, hid, hok]
    · intro hnok
      constructor
      · intro root nodeId newId hroot hqs hnz hdesc
        simp [resolveRef, hid, hnok, hroot, hqs, hnz, hdesc]
      · intro hfail
        rcases hfail with hdoc | ⟨root, hroot, hqs⟩
        · simp [resolveRef, hid, hnok, hdoc]
        · rcases hqs with hq | hq | ⟨nodeId, hq, hdesc⟩
          · simp [resolveRef, hid, hnok, hroot, hq]
          · simp [resolveRef, hid, hnok, hroot, hq]
          · by_cases hz : nodeId = 0
            · subst hz
              simp [resolveRef, hid, hnok, hroot, hq]
            · simp [resolveRef, hid, hnok, hroot, hq, hz, hdesc]

/-- Witness for C2: a concrete registry and environment in which the
backend tier fails and the domPath tier resolves, exercising the
write-back branch of the ladder. -/
theorem resolveRef_three_tier_ladder_witness :
    resolveRef
      { resolveNodeOk := fun _ => false, getDocument := some 1,
        querySelector := fun _ _ => some 5, describeNode := fun _ => some 99,
        axPartialTree := fun _ => some "ax9" }
      { counter := 3,
        refs := [("@e1", { axNodeId := "ax1", backendNodeId := 42,
                           domPath := "#login", stale := true })] }
      "@e1" =
      ({ counter := 3,
         refs := [("@e1", { axNodeId := "ax9", backendNodeId := 99,
                            domPath := "#login", stale := false })] },
       .resolved 99 .domPath) := by
  have h := (resolveRef_three_tier_ladder
    { resolveNodeOk := fun _ => false, getDocument := some 1,
      querySelector := fun _ _ => some 5, describeNode := fun _ => some 99,
      axPartialTree := fun _ => some "ax9" }
    { counter := 3,
      refs := [("@e1", { axNodeId := "ax1", backendNodeId := 42,
                         domPath := "#login", stale := true })] }
    "@e1").2.1
    { axNodeId := "ax1", backendNodeId := 42, domPath := "#login", stale := true }
    (by decide)
  have h2 := (h.2 rfl).1 1 5 99 rfl rfl (by decide) rfl
  simpa [amSet] using h2

/-- C3: `takeSnapshot` activates the DOM fallback exactly when the AX
extraction found zero interactive nodes and `document.body` has at least
one child element; in every other case the AX-derived element list is
returned. -/
theorem takeSnapshot_dom_fallback_exactly_when :
    ∀ (env : SnapEnv) (keep : Bool) (st : RegState),
      (takeSnapshot env keep st).1.elements =
        if (snapshotFromAxTree env (if keep then st else clearAll st)).2.1 = 0 ∧
            env.bodyChildElementCount > 0 then
          (snapshotFromDomFallback env
            (snapshotFromAxTree env (if keep then st else clearAll st)).2.2).1
        else (snapshotFromAxTree env (if keep then st else clearAll st)).1 := by
  intro env keep st
  unfold takeSnapshot
  rcases hax : snapshotFromAxTree env (if keep then st else clearAll st) with
    ⟨elements, cnt, st1⟩
  by_cases h : cnt = 0
  · by_cases h2 : env.bodyChildElementCount > 0
    · rcases hfb : snapshotFromDomFallback env st1 with ⟨fbElements, st2⟩
      simp [hax, hfb, h, h2]
    · simp [hax, h, h2]
  · simp [hax, h]

theorem mem_setDedupAux {α : Type} [DecidableEq α] (a : α) :
    ∀ (l seen : List α), a ∈ setDedupAux seen l ↔ a ∈ l ∧ a ∉ seen := by
  intro l
  induction l with
  | nil => intro seen; simp [setDedupAux]
  | cons b rest ih =>
    intro seen
    by_cases hb : b ∈ seen
    · rw [setDedupAux, if_pos hb, ih seen]
      constructor
      · rintro ⟨h1, h2⟩; exact ⟨List.mem_cons_of_mem _ h1, h2⟩
      · rintro ⟨h1, h2⟩
        rcases List.mem_cons.mp h1 with rfl | h1
        · exact absurd hb h2
        · exact ⟨h1, h2⟩
    · rw [setDedupAux, if_neg hb]
      by_cases hab : a = b
      · subst hab; simp [hb]
      · rw [List.mem_cons]
        simp only [hab, false_or]
        rw [ih (seen ++ [b])]
        simp [hab]

theorem nodup_setDedupAux {α : Type} [DecidableEq α] :
    ∀ (l seen : List α), (setDedupAux seen l).Nodup := by
  intro l
  induction l with
  | nil => intro seen; simp [setDedupAux]
  | cons b rest ih =>
    intro seen
    by_cases hb : b ∈ seen
    · rw [setDedupAux, if_pos hb]; exact ih seen
    · rw [setDedupAux, if_neg hb]
      refine List.Nodup.cons ?_ (ih (seen ++ [b]))
      intro hmem
      have := (mem_setDedupAux b rest (seen ++ [b])).mp hmem
      simp at this

theorem mem_setDedup {α : Type} [DecidableEq α] {a : α} {l : List α} :
    a ∈ setDedup l ↔ a ∈ l := by
  rw [setDedup, mem_setDedupAux]; simp

theorem nodup_setDedup {α : Type} [DecidableEq α] (l : List α) :
    (setDedup l).Nodup := nodup_setDedupAux l []

theorem amSet_map_fst {κ α : Type} [DecidableEq κ] :
    ∀ (m : List (κ × α)) (k : κ) (v : α),
      (amSet m k v).map Prod.fst =
        if k ∈ m.map Prod.fst then m.map Prod.fst else m.map Prod.fst ++ [k] := by
  intro m
  induction m with
  | nil => intro k v; simp [amSet]
  | cons p rest ih =>
    intro k v
    rcases p with ⟨k0, w⟩
    by_cases h : k0 = k
    · subst h; simp [amSet]
    · rw [amSet]
      rw [if_neg h]
      simp only [List.map_cons, ih k v]
      by_cases hm : k ∈ rest.map Prod.fst
      · simp [hm, h, Ne.symm h]
      · simp [hm, h, Ne.symm h]

theorem amSet_keys_nodup {κ α : Type} [DecidableEq κ]
    {m : List (κ × α)} (h : (m.map Prod.fst).Nodup) (k : κ) (v : α) :
    ((amSet m k v).map Prod.fst).Nodup := by
  rw [amSet_map_fst]
  by_cases hm : k ∈ m.map Prod.fst
  · simpa [hm] using h
  · simp only [hm, if_false]
    simp [List.nodup_append, h, hm]

theorem keys_nodup_mem_unique {κ α : Type} [DecidableEq κ] :
    ∀ {m : List (κ × α)}, (m.map Prod.fst).Nodup →
      ∀ {k : κ} {v v' : α}, (k, v) ∈ m → (k, v') ∈ m → v = v' := by
  intro m
  induction m with
  | nil => intro _ k v v' h; simp at h
  | cons p rest ih =>
    intro hnd k v v' h1 h2
    rcases p with ⟨k0, w⟩
    simp only [List.map_cons, List.nodup_cons] at hnd
    rcases List.mem_cons.mp h1 with he1 | ht1
    · rcases List.mem_cons.mp h2 with he2 | ht2
      · rw [Prod.mk.injEq] at he1 he2
        rw [he1.2, ← he2.2]
      · exfalso
        have : k0 = k := (Prod.mk.injEq _ _ _ _).mp he1 |>.1 |>.symm
        subst this
        exact hnd.1 (List.mem_map.mpr ⟨(k0, v'), ht2, rfl⟩)
    · rcases List.mem_cons.mp h2 with he2 | ht2
      · exfalso
        have : k0 = k := (Prod.mk.injEq _ _ _ _).mp he2 |>.1 |>.symm
        subst this
        exact hnd.1 (List.mem_map.mpr ⟨(k0, v), ht1, rfl⟩)
      · exact ih hnd.2 ht1 ht2

theorem foldl_invariant {σ α : Type} (P : σ → Prop) (f : σ → α → σ)
    (step : ∀ s a, P s → P (f s a)) :
    ∀ (l : List α) (s : σ), P s → P (l.foldl f s) := by
  intro l
  induction l with
  | nil => intro s h; exact h
  | cons a rest ih => intro s h; exact ih (f s a) (step s a h)

theorem matchPhase1_keys_nodup (preByAxId postByAxId : List (String × SnapshotElement)) :
    (((matchPhase1 preByAxId postByAxId).1).map Prod.fst).Nodup := by
  unfold matchPhase1
  refine foldl_invariant
    (fun (s : List (String × (SnapshotElement × SnapshotElement)) ×
        List String × List String) => ((s.1).map Prod.fst).Nodup)
    _ ?_ postByAxId ([], [], []) ?_
  · rintro ⟨matched, pres, posts⟩ ⟨axId, postEl⟩ h
    dsimp only
    cases amGet preByAxId axId with
    | none => exact h
    | some preEl => exact amSet_keys_nodup h _ _
  · simp

theorem matchPhase2_keys_nodup (preByPath : List (String × SnapshotElement))
    (postElements : List SnapshotElement)
    (init : List (String × (SnapshotElement × SnapshotElement)) ×
      List String × List String)
    (hinit : ((init.1).map Prod.fst).Nodup) :
    (((matchPhase2 preByPath postElements init).1).map Prod.fst).Nodup := by
  unfold matchPhase2
  refine foldl_invariant
    (fun s => ((s.1).map Prod.fst).Nodup) _ ?_ postElements
    (init.1, init.2.1, init.2.2, 0) hinit
  rintro ⟨matched, pres, posts, n⟩ postEl h
  dsimp only
  by_cases hpost : postEl.ref ∈ posts
  · simpa [hpost] using h
  · simp only [hpost, if_false]
    cases amGet preByPath postEl.domPath with
    | none => exact h
    | some preEl =>
      by_cases hpre : preEl.ref ∈ pres
      · simpa [hpre] using h
      · simpa [hpre] using amSet_keys_nodup h _ _

theorem matched_keys_nodup (pre post : SnapshotData) :
    (((matchElements pre post).matched).map Prod.fst).Nodup := by
  unfold matchElements
  exact matchPhase2_keys_nodup _ _ _ (matchPhase1_keys_nodup _ _)

theorem propertyChangeSegments_eq_nil_iff (pa pb : List (String × String)) :
    propertyChangeSegments pa pb = [] ↔
      ∀ k ∈ pa.map Prod.fst ++ pb.map Prod.fst, amGet pa k = amGet pb k := by
  unfold propertyChangeSegments
  rw [List.filterMap_eq_nil_iff]
  constructor
  · intro h k hk
    have := h k (mem_setDedup.mpr hk)
    by_contra hne
    simp [hne] at this
  · intro h k hk
    rw [h k (mem_setDedup.mp hk)]
    simp

theorem describeChange_eq_none_iff (a b : SnapshotElement) :
    describeChange a b = none ↔
      (a.name = b.name ∧ a.role = b.role ∧
        ∀ k ∈ a.properties.map Prod.fst ++ b.properties.map Prod.fst,
          amGet a.properties k = amGet b.properties k) := by
  simp only [describeChange]
  by_cases hname : a.name = b.name <;> by_cases hrole : a.role = b.role <;>
    simp [hname, hrole, propertyChangeSegments_eq_nil_iff]

theorem describeChange_eq_some (a b : SnapshotElement) (d : String) :
    describeChange a b = some d →
      d = String.intercalate ", "
        ((if a.name ≠ b.name then
            ["name: " ++ quoted a.name ++ " -> " ++ quoted b.name] else []) ++
         (if a.role ≠ b.role then
            ["role: " ++ a.role ++ " -> " ++ b.role] else []) ++
         propertyChangeSegments a.properties b.properties) := by
  intro h
  simp only [describeChange] at h
  repeat split at h
  all_goals simp_all

theorem diffSnapshots_changed_mem (pathnameOf : String → Option String)
    (pre post : SnapshotData) (evs : List NetworkEvent) (c : Consequence) :
    c ∈ diffSnapshots pathnameOf pre post evs → c.type = .changed →
      ∃ e ∈ (matchElements pre post).matched, ∃ d,
        describeChange e.2.1 e.2.2 = some d ∧
        c = { type := .changed, ref := some e.1, desc := d } := by
  intro hc htype
  simp only [diffSnapshots, List.mem_append] at hc
  rcases hc with ((h | h) | h) | h
  · obtain ⟨el, _, rfl⟩ := List.mem_map.mp h
    simp at htype
  · obtain ⟨el, _, rfl⟩ := List.mem_map.mp h
    simp at htype
  · obtain ⟨e, he, hsome⟩ := List.mem_filterMap.mp h
    rcases hdc : describeChange e.2.1 e.2.2 with _ | d
    · rw [hdc] at hsome; simp at hsome
    · rw [hdc] at hsome
      have hco : ({ type := .changed, ref := some e.1, desc := d } : Consequence) = c := by
        simpa using hsome
      exact ⟨e, he, d, hdc, hco.symm⟩
  · obtain ⟨el, _, rfl⟩ := List.mem_map.mp h
    simp at htype

theorem diffSnapshots_changed_of_describe (pathnameOf : String → Option String)
    (pre post : SnapshotData) (evs : List NetworkEvent)
    (e : String × (SnapshotElement × SnapshotElement)) (d : String) :
    e ∈ (matchElements pre post).matched →
    describeChange e.2.1 e.2.2 = some d →
      ({ type := .changed, ref := some e.1, desc := d } : Consequence) ∈
        diffSnapshots pathnameOf pre post evs := by
  intro he hd
  simp only [diffSnapshots, List.mem_append]
  refine Or.inl (Or.inr ?_)
  exact List.mem_filterMap.mpr ⟨e, he, by rw [hd]; rfl⟩

/-- C4 (amended): for every matched pre/post pair produced by the
differ, a changed consequence is emitted exactly when the name, the
role, or any property over the union (not the symmetric difference) of
the properties keys differs in value; its desc is the comma-separated
segment list in which the name and property segments have the form
`k: "old" -> "new"` while the role segment is unquoted
(`role: old -> new`). -/
theorem differ_changed_union_characterization :
    ∀ (pathnameOf : String → Option String) (pre post : SnapshotData)
      (evs : List NetworkEvent) (ref : String)
      (preEl postEl : SnapshotElement),
      (ref, (preEl, postEl)) ∈ (matchElements pre post).matched →
      ((∃ c ∈ diffSnapshots pathnameOf pre post evs,
          c.type = .changed ∧ c.ref = some ref) ↔
        (preEl.name ≠ postEl.name ∨ preEl.role ≠ postEl.role ∨
         ∃ k ∈ preEl.properties.map Prod.fst ++ postEl.properties.map Prod.fst,
           amGet preEl.properties k ≠ amGet postEl.properties k)) ∧
      ∀ c ∈ diffSnapshots pathnameOf pre post evs,
        c.type = .changed → c.ref = some ref →
        c.desc = String.intercalate ", "
          ((if preEl.name ≠ postEl.name then
              ["name: " ++ quoted preEl.name ++ " -> " ++ quoted postEl.name]
            else []) ++
           (if preEl.role ≠ postEl.role then
              ["role: " ++ preEl.role ++ " -> " ++ postEl.role] else []) ++
           propertyChangeSegments preEl.properties postEl.properties) := by
  intro pathnameOf pre post evs ref preEl postEl hmem
  have huniq : ∀ pp, (ref, pp) ∈ (matchElements pre post).matched →
      pp = (preEl, postEl) :=
    fun pp hpp => keys_nodup_mem_unique (matched_keys_nodup pre post) hpp hmem
  constructor
  · constructor
    · rintro ⟨c, hc, htype, href⟩
      obtain ⟨e, he, d, hdc, rfl⟩ :=
        diffSnapshots_changed_mem pathnameOf pre post evs c hc htype
      simp only [Option.some.injEq] at href
      obtain ⟨r, pp⟩ := e
      cases href
      have := huniq pp he
      subst this
      have hne : ¬ (describeChange preEl postEl = none) := by
        simp only at hdc
        rw [hdc]; simp
      rw [describeChange_eq_none_iff] at hne
      push_neg at hne
      by_cases h1 : preEl.name = postEl.name
      · by_cases h2 : preEl.role = postEl.role
        · obtain ⟨k, hk, hkne⟩ := hne h1 h2
          exact Or.inr (Or.inr ⟨k, hk, hkne⟩)
        · exact Or.inr (Or.inl h2)
      · exact Or.inl h1
    · intro hcond
      have hne : describeChange preEl postEl ≠ none := by
        intro hnone
        rw [describeChange_eq_none_iff] at hnone
        obtain ⟨h1, h2, h3⟩ := hnone
        rcases hcond with h | h | ⟨k, hk, hkne⟩
        · exact h h1
        · exact h h2
        · exact hkne (h3 k hk)
      rcases hdc : describeChange preEl postEl with _ | d
      · exact absurd hdc hne
      · refine ⟨{ type := .changed, ref := some ref, desc := d }, ?_, rfl, rfl⟩
        exact diffSnapshots_changed_of_describe pathnameOf pre post evs
          (ref, (preEl, postEl)) d hmem hdc
  · intro c hc htype href
    obtain ⟨e, he, d, hdc, rfl⟩ :=
      diffSnapshots_changed_mem pathnameOf pre post evs c hc htype
    simp only [Option.some.injEq] at href
    obtain ⟨r, pp⟩ := e
    cases href
    have := huniq pp he
    subst this
    simpa using describeChange_eq_some preEl postEl d hdc

/-- C4 counterexample: `checkboxPreEl`/`checkboxPostEl` form a matched
pair with equal name, equal role and identical property key lists (so
the symmetric difference of the keys is empty), yet the differ emits a
changed consequence, because the shared key `checked` changed value. -/
theorem differ_symmetric_difference_counterexample :
    checkboxPreEl.name = checkboxPostEl.name ∧
    checkboxPreEl.role = checkboxPostEl.role ∧
    checkboxPreEl.properties.map Prod.fst =
      checkboxPostEl.properties.map Prod.fst ∧
    ("@e2", (checkboxPreEl, checkboxPostEl)) ∈
      (matchElements checkboxPreSnap checkboxPostSnap).matched ∧
    diffSnapshots (fun _ => none) checkboxPreSnap checkboxPostSnap [] =
      [{ type := .changed, ref := some "@e2",
         desc := "checked: \"false\" -> \"true\"" }] := by
  refine ⟨rfl, rfl, rfl, by decide, rfl⟩

/-- Witness for the amended C4 theorem at the concrete matched pair of
the counterexample fixtures: the union-of-keys condition makes the
changed consequence appear. -/
theorem differ_changed_union_witness :
    ∃ c ∈ diffSnapshots (fun _ => none) checkboxPreSnap checkboxPostSnap [],
      c.type = .changed ∧ c.ref = some "@e2" := by
  have h := (differ_changed_union_characterization (fun _ => none)
    checkboxPreSnap checkboxPostSnap [] "@e2" checkboxPreEl checkboxPostEl
    (by decide)).1
  exact h.mpr (Or.inr (Or.inr ⟨"checked", by decide, by decide⟩))

theorem amGet_amSet {κ α : Type} [DecidableEq κ] :
    ∀ (m : List (κ × α)) (k : κ) (v : α) (p : κ),
      amGet (amSet m k v) p = if k = p then some v else amGet m p := by
  intro m
  induction m with
  | nil => intro k v p; rfl
  | cons q rest ih =>
    intro k v p
    rcases q with ⟨k0, w⟩
    by_cases h : k0 = k
    · subst h
      rw [amSet, if_pos rfl]
      by_cases hp : k0 = p <;> simp [amGet, hp]
    · rw [amSet, if_neg h]
      by_cases hp : k0 = p
      · subst hp
        have hk : ¬ k = k0 := fun e => h e.symm
        simp [amGet, hk]
      · simp [amGet, hp, ih]

theorem amGetD_bumpCount (m : List (Nat × Nat)) (k p : Nat) :
    (amGet (bumpCount m k) p).getD 0 =
      (amGet m p).getD 0 + if k = p then 1 else 0 := by
  rw [bumpCount, amGet_amSet]
  by_cases h : k = p
  · subst h; simp
  · simp [h]

theorem amGet_none_of_not_mem_keys {κ α : Type} [DecidableEq κ] :
    ∀ (m : List (κ × α)) (p : κ), p ∉ m.map Prod.fst → amGet m p = none := by
  intro m
  induction m with
  | nil => intro p _; rfl
  | cons q rest ih =>
    intro p hp
    rcases q with ⟨k0, w⟩
    simp only [List.map_cons, List.mem_cons, not_or] at hp
    rw [amGet, if_neg (fun e => hp.1 e.symm)]
    exact ih p hp.2

theorem mem_keys_bumpCount (m : List (Nat × Nat)) (k p : Nat) :
    p ∈ (bumpCount m k).map Prod.fst → p ∈ m.map Prod.fst ∨ p = k := by
  rw [bumpCount, amSet_map_fst]
  split
  · exact fun h => Or.inl h
  · intro h
    rcases List.mem_append.mp h with h | h
    · exact Or.inl h
    · simp at h; exact Or.inr h

theorem insCountAt_cons_inserted (q : Nat) (l : List MutEvent) (p : Nat) :
    insCountAt (.inserted q :: l) p = insCountAt l p + if q = p then 1 else 0 := by
  simp [insCountAt, List.count_cons]

theorem insCountAt_cons_removed (q : Nat) (l : List MutEvent) (p : Nat) :
    insCountAt (.removed q :: l) p = insCountAt l p := by
  simp [insCountAt, List.count_cons]

theorem remCountAt_cons_removed (q : Nat) (l : List MutEvent) (p : Nat) :
    remCountAt (.removed q :: l) p = remCountAt l p + if q = p then 1 else 0 := by
  simp [remCountAt, List.count_cons]

theorem remCountAt_cons_inserted (q : Nat) (l : List MutEvent) (p : Nat) :
    remCountAt (.inserted q :: l) p = remCountAt l p := by
  simp [remCountAt, List.count_cons]

theorem trackerState_foldl_counts :
    ∀ (events : List MutEvent) (ins rem : List (Nat × Nat)) (p : Nat),
      (amGet (events.foldl trackerStep (ins, rem)).1 p).getD 0 =
        (amGet ins p).getD 0 + insCountAt events p ∧
      (amGet (events.foldl trackerStep (ins, rem)).2 p).getD 0 =
        (amGet rem p).getD 0 + remCountAt events p := by
  intro events
  induction events with
  | nil => intro ins rem p; simp [insCountAt, remCountAt]
  | cons e rest ih =>
    intro ins rem p
    cases e with
    | inserted q =>
      have h := ih (bumpCount ins q) rem p
      constructor
      · rw [List.foldl_cons]
        rw [show trackerStep (ins, rem) (.inserted q) = (bumpCount ins q, rem) from rfl]
        rw [h.1, amGetD_bumpCount, insCountAt_cons_inserted]
        omega
      · rw [List.foldl_cons]
        rw [show trackerStep (ins, rem) (.inserted q) = (bumpCount ins q, rem) from rfl]
        rw [h.2, remCountAt_cons_inserted]
    | removed q =>
      have h := ih ins (bumpCount rem q) p
      constructor
      · rw [List.foldl_cons]
        rw [show trackerStep (ins, rem) (.removed q) = (ins, bumpCount rem q) from rfl]
        rw [h.1, insCountAt_cons_removed]
      · rw [List.foldl_cons]
        rw [show trackerStep (ins, rem) (.removed q) = (ins, bumpCount rem q) from rfl]
        rw [h.2, amGetD_bumpCount, remCountAt_cons_removed]
        omega

theorem trackerState_foldl_keys :
    ∀ (events : List MutEvent) (ins rem : List (Nat × Nat)) (p : Nat),
      (p ∈ ((events.foldl trackerStep (ins, rem)).1).map Prod.fst →
        p ∈ ins.map Prod.fst ∨ p ∈ events.map MutEvent.parent) ∧
      (p ∈ ((events.foldl trackerStep (ins, rem)).2).map Prod.fst →
        p ∈ rem.map Prod.fst ∨ p ∈ events.map MutEvent.parent) := by
  intro events
  induction events with
  | nil => intro ins rem p; simp
  | cons e rest ih =>
    intro ins rem p
    cases e with
    | inserted q =>
      have h := ih (bumpCount ins q) rem p
      constructor
      · intro hmem
        rw [List.foldl_cons] at hmem
        rcases h.1 hmem with hk | hk
        · rcases mem_keys_bumpCount ins q p hk with hk2 | hk2
          · exact Or.inl hk2
          · subst hk2; simp [MutEvent.parent]
        · simp only [List.map_cons, List.mem_cons]
          exact Or.inr (Or.inr hk)
      · intro hmem
        rw [List.foldl_cons] at hmem
        rcases h.2 hmem with hk | hk
        · exact Or.inl hk
        · simp only [List.map_cons, List.mem_cons]
          exact Or.inr (Or.inr hk)
    | removed q =>
      have h := ih ins (bumpCount rem q) p
      constructor
      · intro hmem
        rw [List.foldl_cons] at hmem
        rcases h.1 hmem with hk | hk
        · exact Or.inl hk
        · simp only [List.map_cons, List.mem_cons]
          exact Or.inr (Or.inr hk)
      · intro hmem
        rw [List.foldl_cons] at hmem
        rcases h.2 hmem with hk | hk
        · rcases mem_keys_bumpCount rem q p hk with hk2 | hk2
          · exact Or.inl hk2
          · subst hk2; simp [MutEvent.parent]
        · simp only [List.map_cons, List.mem_cons]
          exact Or.inr (Or.inr hk)

theorem sum_map_eq_of_zero_off (f : Nat → Nat) (A B : List Nat)
    (hA : A.Nodup) (hB : B.Nodup) (hsub : ∀ p ∈ A, p ∈ B)
    (hzero : ∀ p ∈ B, p ∉ A → f p = 0) :
    (A.map f).sum = (B.map f).sum := by
  rw [← List.sum_toFinset f hA, ← List.sum_toFinset f hB]
  apply Finset.sum_subset
  · intro x hx
    exact List.mem_toFinset.mpr (hsub x (List.mem_toFinset.mp hx))
  · intro x hx hnx
    exact hzero x (List.mem_toFinset.mp hx)
      (fun hmem => hnx (List.mem_toFinset.mpr hmem))

theorem trackerStop_churn_sum (events : List MutEvent) (P : List Nat)
    (hP : P.Nodup) (hcov : ∀ p ∈ events.map MutEvent.parent, p ∈ P) :
    (trackerStop events).churnCount =
      (P.map (fun p => min (insCountAt events p) (remCountAt events p))).sum := by
  have hcounts := fun p => trackerState_foldl_counts events [] [] p
  have hins : ∀ p, (amGet (trackerState events).1 p).getD 0 = insCountAt events p := by
    intro p
    have := (hcounts p).1
    simpa [trackerState, amGet] using this
  have hrem : ∀ p, (amGet (trackerState events).2 p).getD 0 = remCountAt events p := by
    intro p
    have := (hcounts p).2
    simpa [trackerState, amGet] using this
  have hstop : (trackerStop events).churnCount =
      ((setDedup ((trackerState events).1.map Prod.fst ++
        (trackerState events).2.map Prod.fst)).map
        (fun p => min ((amGet (trackerState events).1 p).getD 0)
          ((amGet (trackerState events).2 p).getD 0))).sum := by
    rw [trackerStop]
  have hfun : (fun p => min ((amGet (trackerState events).1 p).getD 0)
      ((amGet (trackerState events).2 p).getD 0)) =
      (fun p => min (insCountAt events p) (remCountAt events p)) := by
    funext p
    rw [hins p, hrem p]
  rw [hstop, hfun]
  apply sum_map_eq_of_zero_off
  · exact nodup_setDedup _
  · exact hP
  · intro p hp
    have hp2 := mem_setDedup.mp hp
    rcases List.mem_append.mp hp2 with hk | hk
    · rcases (trackerState_foldl_keys events [] [] p).1 hk with h0 | h0
      · simp at h0
      · exact hcov p h0
    · rcases (trackerState_foldl_keys events [] [] p).2 hk with h0 | h0
      · simp at h0
      · exact hcov p h0
  · intro p _ hnp
    have hnotk : p ∉ (trackerState events).1.map Prod.fst ∧
        p ∉ (trackerState events).2.map Prod.fst := by
      constructor <;> intro hk <;> apply hnp <;> apply mem_setDedup.mpr
      · exact List.mem_append.mpr (Or.inl hk)
      · exact List.mem_append.mpr (Or.inr hk)
    have h1 : insCountAt events p = 0 := by
      rw [← hins p, amGet_none_of_not_mem_keys _ p hnotk.1]; rfl
    have h2 : remCountAt events p = 0 := by
      rw [← hrem p, amGet_none_of_not_mem_keys _ p hnotk.2]; rfl
    simp [h1, h2]

/-- C5: for every finite event sequence, the mutation tracker's stop
aggregation yields `churnCount = Σ over parents p of
min(insertions at p, removals at p)` (stated for any duplicate-free list
of parents covering those of the events; parents outside the events
contribute 0), and the value is invariant under any permutation of the
event sequence. -/
theorem churn_min_sum_and_permutation_invariant :
    ∀ (l₁ l₂ : List MutEvent) (P : List Nat),
      l₁.Perm l₂ → P.Nodup → (∀ p ∈ l₁.map MutEvent.parent, p ∈ P) →
      (trackerStop l₁).churnCount =
        (P.map (fun p => min (insCountAt l₁ p) (remCountAt l₁ p))).sum ∧
      (trackerStop l₁).churnCount = (trackerStop l₂).churnCount := by
  intro l₁ l₂ P hperm hP hcov
  refine ⟨trackerStop_churn_sum l₁ P hP hcov, ?_⟩
  have hP0 : (setDedup (l₁.map MutEvent.parent)).Nodup := nodup_setDedup _
  have hcov1 : ∀ p ∈ l₁.map MutEvent.parent, p ∈ setDedup (l₁.map MutEvent.parent) :=
    fun p hp => mem_setDedup.mpr hp
  have hcov2 : ∀ p ∈ l₂.map MutEvent.parent, p ∈ setDedup (l₁.map MutEvent.parent) := by
    intro p hp
    exact mem_setDedup.mpr ((hperm.map MutEvent.parent).mem_iff.mpr hp)
  rw [trackerStop_churn_sum l₁ _ hP0 hcov1, trackerStop_churn_sum l₂ _ hP0 hcov2]
  have hfun : (fun p => min (insCountAt l₁ p) (remCountAt l₁ p)) =
      (fun p => min (insCountAt l₂ p) (remCountAt l₂ p)) := by
    funext p
    rw [insCountAt, insCountAt, remCountAt, remCountAt,
      hperm.count_eq, hperm.count_eq]
  rw [hfun]

/-- Witness for C5 at a concrete event sequence, its permutation and a
concrete covering parent list. -/
theorem churn_min_sum_witness :
    (trackerStop [.inserted 1, .removed 1, .inserted 2]).churnCount =
      ([1, 2].map (fun p =>
        min (insCountAt [.inserted 1, .removed 1, .inserted 2] p)
            (remCountAt [.inserted 1, .removed 1, .inserted 2] p))).sum ∧
    (trackerStop [.inserted 1, .removed 1, .inserted 2]).churnCount =
      (trackerStop [.removed 1, .inserted 2, .inserted 1]).churnCount := by
  exact churn_min_sum_and_permutation_invariant
    [.inserted 1, .removed 1, .inserted 2]
    [.removed 1, .inserted 2, .inserted 1]
    [1, 2] (by decide) (by decide) (by decide)

/-- C6 (code bug): with every pipeline step up to the action succeeding
and the native-setter script reporting the value was not persisted, the
fill action function throws an error tagged `code: "FILL_FAILED"` - but
the returned ActionResult is ok:false with error code ACTION_FAILED:
the catch in `executeWithConsequences` rebuilds every thrown error from
its message alone and discards the FILL_FAILED tag. -/
theorem fill_not_persisted_surfaces_ACTION_FAILED :
    fillActionOutcome fillNotPersistedPage =
      some { message := "Fill failed: could not set value",
             code := some .FILL_FAILED } ∧
    (fill engineOkEnv fillNotPersistedPage "@e1" "Alice").ok = false ∧
    (fill engineOkEnv fillNotPersistedPage "@e1" "Alice").errors =
      [{ code := .ACTION_FAILED,
         message := "Fill failed: could not set value" }] := by
  exact ⟨rfl, rfl, rfl⟩

/-- C7: the compact line is `@eN role "name" [states] value:"…"`, where
a state token k (among the six state keys, in their fixed order) is
included exactly when properties.k is the string "true", the value
suffix is included exactly when properties.value is non-empty and
differs from name (hence only when it exists and differs), and no
property outside these seven keys influences the line. -/
theorem compact_line_characterization :
    ∀ (ref role name : String) (props props' : List (String × String)),
      (∀ k ∈ ["focused", "checked", "selected", "expanded", "disabled",
              "required", "value"], amGet props k = amGet props' k) →
      formatCompactLine ref role name props =
        formatCompactLine ref role name props' ∧
      formatCompactLine ref role name props =
        (let base := ref ++ " " ++ role
         let base := if name ≠ "" then base ++ " " ++ quoted name else base
         let states := ["focused", "checked", "selected", "expanded",
            "disabled", "required"].filter
              (fun k => decide (amGet props k = some "true"))
         let base := if states ≠ [] then
             base ++ " [" ++ String.intercalate ", " states ++ "]" else base
         match amGet props "value" with
         | some v =>
           if v ≠ "" ∧ v ≠ name then base ++ " value:" ++ quoted v else base
         | none => base) := by
  intro ref role name props props' h
  constructor
  · unfold formatCompactLine
    rw [h "focused" (by decide), h "checked" (by decide),
      h "selected" (by decide), h "expanded" (by decide),
      h "disabled" (by decide), h "required" (by decide),
      h "value" (by decide)]
  · unfold formatCompactLine
    have hstates :
        ((if amGet props "focused" = some "true" then ["focused"] else []) ++
         (if amGet props "checked" = some "true" then ["checked"] else []) ++
         (if amGet props "selected" = some "true" then ["selected"] else []) ++
         (if amGet props "expanded" = some "true" then ["expanded"] else []) ++
         (if amGet props "disabled" = some "true" then ["disabled"] else []) ++
         (if amGet props "required" = some "true" then ["required"] else [])) =
        ["focused", "checked", "selected", "expanded", "disabled",
         "required"].filter (fun k => decide (amGet props k = some "true")) := by
      by_cases h1 : amGet props "focused" = some "true" <;>
      by_cases h2 : amGet props "checked" = some "true" <;>
      by_cases h3 : amGet props "selected" = some "true" <;>
      by_cases h4 : amGet props "expanded" = some "true" <;>
      by_cases h5 : amGet props "disabled" = some "true" <;>
      by_cases h6 : amGet props "required" = some "true" <;>
        simp [h1, h2, h3, h4, h5, h6]
    rw [hstates]

/-- Witness for C7: the eighth property key `data-x` does not influence
the line, and the rendered line has the checked token and the value
suffix. -/
theorem compact_line_witness :
    formatCompactLine "@e3" "textbox" "Name"
      [("checked", "true"), ("value", "Alice"), ("data-x", "1")] =
      formatCompactLine "@e3" "textbox" "Name"
        [("checked", "true"), ("value", "Alice")] ∧
    formatCompactLine "@e3" "textbox" "Name"
      [("checked", "true"), ("value", "Alice"), ("data-x", "1")] =
      "@e3 textbox \"Name\" [checked] value:\"Alice\"" := by
  have h := compact_line_characterization "@e3" "textbox" "Name"
    [("checked", "true"), ("value", "Alice"), ("data-x", "1")]
    [("checked", "true"), ("value", "Alice")] (by decide)
  exact ⟨h.1, rfl⟩

/-- C8: for every key-combination string, the modifier bitmask computed
by `parseKeyCombo` (and sent with every dispatched key event) is
alt*1 + ctrl*2 + meta*4 + shift*8, and the four modifier flags are a
function of the tokens preceding the primary key alone. -/
theorem mods_or_eq_add (c s a m : Bool) :
    ((if c then (2 : Nat) else 0) ||| (if a then 1 else 0) |||
      (if s then 8 else 0) ||| (if m then 4 else 0)) =
      (if a then 1 else 0) + 2 * (if c then 1 else 0) +
        4 * (if m then 1 else 0) + 8 * (if s then 1 else 0) := by
  cases c <;> cases s <;> cases a <;> cases m <;> decide

theorem press_key_modifier_bitmask :
    ∀ keyStr : String,
      (parseKeyCombo keyStr).modifiers =
        (if (parseKeyCombo keyStr).altKey then 1 else 0) +
        2 * (if (parseKeyCombo keyStr).ctrlKey then 1 else 0) +
        4 * (if (parseKeyCombo keyStr).metaKey then 1 else 0) +
        8 * (if (parseKeyCombo keyStr).shiftKey then 1 else 0) ∧
      ((parseKeyCombo keyStr).ctrlKey, (parseKeyCombo keyStr).shiftKey,
       (parseKeyCombo keyStr).altKey, (parseKeyCombo keyStr).metaKey) =
        modifierFlags ((keyStr.splitOn "+").dropLast) := by
  intro keyStr
  rcases hm : modifierFlags ((keyStr.splitOn "+").dropLast) with ⟨c, s, a, m⟩
  simp only [parseKeyCombo, hm]
  rcases hk : amGet KEY_MAP (((keyStr.splitOn "+").getLastD "").toLower) with
    _ | mapped <;>
    simp only [hk] <;>
    exact ⟨mods_or_eq_add c s a m, by trivial⟩

/-- C9: every ok:false ActionResult of the ref-action pipeline is an
`errorAction` envelope: empty consequences, empty
newInteractiveElements, empty warnings, absent resolvedBy, and the zero
PageInfo; the ok:false SnapshotResult envelope likewise reports the zero
page and no elements. -/
theorem error_results_zero_shape :
    (∀ (a : String) (errs : List ErrorDetail) (t : Nat),
        (errorAction a errs t).ok = false ∧
        (errorAction a errs t).consequences = [] ∧
        (errorAction a errs t).newInteractiveElements = [] ∧
        (errorAction a errs t).warnings = [] ∧
        (errorAction a errs t).resolvedBy = none ∧
        (errorAction a errs t).page = zeroPageInfo) ∧
    (∀ (env : EngineEnv) (desc : String),
        (executeWithConsequences env desc).ok = false →
        (executeWithConsequences env desc).consequences = [] ∧
        (executeWithConsequences env desc).newInteractiveElements = [] ∧
        (executeWithConsequences env desc).warnings = [] ∧
        (executeWithConsequences env desc).resolvedBy = none ∧
        (executeWithConsequences env desc).page = zeroPageInfo) ∧
    (∀ (errs : List ErrorDetail) (t : Nat),
        (errorSnapshotResult errs t).ok = false ∧
        (errorSnapshotResult errs t).page = zeroPageInfo ∧
        (errorSnapshotResult errs t).elements = []) := by
  refine ⟨fun a errs t => ⟨rfl, rfl, rfl, rfl, rfl, rfl⟩, ?_,
    fun errs t => ⟨rfl, rfl, rfl⟩⟩
  intro env desc
  have hch : (∃ errs, executeWithConsequences env desc =
      errorAction desc errs env.timing) ∨
      (executeWithConsequences env desc).ok = true := by
    unfold executeWithConsequences
    split
    · exact Or.inl ⟨_, rfl⟩
    · split
      · exact Or.inl ⟨_, rfl⟩
      · split
        · exact Or.inl ⟨_, rfl⟩
        · split
          · exact Or.inl ⟨_, rfl⟩
          · split
            · exact Or.inl ⟨_, rfl⟩
            · exact Or.inr rfl
  intro hok
  rcases hch with ⟨errs, heq⟩ | htrue
  · rw [heq]
    exact ⟨rfl, rfl, rfl, rfl, rfl⟩
  · rw [hok] at htrue
    exact absurd htrue (by simp)

/-- Witness for C9: a disconnected client makes the pipeline return
ok:false, and the envelope carries the zero shape. -/
theorem error_results_zero_shape_witness :
    (executeWithConsequences engineDisconnectedEnv "click @e7").consequences = [] ∧
    (executeWithConsequences engineDisconnectedEnv "click @e7").newInteractiveElements = [] ∧
    (executeWithConsequences engineDisconnectedEnv "click @e7").warnings = [] ∧
    (executeWithConsequences engineDisconnectedEnv "click @e7").resolvedBy = none ∧
    (executeWithConsequences engineDisconnectedEnv "click @e7").page = zeroPageInfo :=
  error_results_zero_shape.2.1 engineDisconnectedEnv "click @e7" rfl

/-- C10: calling waitFor with an explicit timeout of 0 behaves
identically to omitting the timeout - the falsy value is replaced by the
10000 ms default, so the polling loop runs with timeout 10000 instead of
timing out immediately. -/
theorem waitFor_zero_timeout_uses_default :
    ∀ (env : WaitEnv) (text ref : Option String),
      waitFor env text ref (some 0) = waitFor env text ref none ∧
      (env.clientOk = true →
        waitFor env text ref (some 0) = waitLoop env text ref 10000 0 0) := by
  intro env text ref
  constructor
  · rfl
  · intro hok
    unfold waitFor
    simp [hok]

/-- Witness for C10: a concrete environment with a connected client;
waitFor with timeout 0 enters the polling loop with the 10000 ms
default. -/
theorem waitFor_zero_timeout_witness :
    waitFor
      { clientOk := true, crashed := false,
        iterations := fun _ =>
          { snapshot := none, refResolves := false, boxModelOk := false } }
      none none (some 0) =
    waitLoop
      { clientOk := true, crashed := false,
        iterations := fun _ =>
          { snapshot := none, refResolves := false, boxModelOk := false } }
      none none 10000 0 0 :=
  (waitFor_zero_timeout_uses_default _ none none).2 rfl

end BrowserStream
